import Mathlib

/-!
Shallow embedding of the core of `src/app.py` (xmanagement): the salary
estimation with time-versioned wage rates (`salary_estimate`, app.py 404-457),
the shift-response approval workflow (`approve_shift_response`, app.py 271-323)
and the shift-swap approval workflow (`update_shift_swap_status`,
app.py 530-577).

Modelling conventions:
  * calendar dates (`datetime.date`) are year/month/day triples compared
    lexicographically; times (`datetime.time`, parsed at minute granularity
    via "%H:%M") are minutes since midnight;
  * the SQLAlchemy tables are lists of records inside a `DB` value; lookups
    by primary key (`Model.query.get(id)` / `filter_by(...).first()`) are
    `List.find?`;
  * monetary/float arithmetic is modelled over `ℚ`;
  * a request handler becomes a function `DB → args → result × DB`,
    returning the committed database: a path that reaches
    `db.session.commit()` returns the mutated database, while a path that
    returns early without committing returns the original database
    (Flask-SQLAlchemy rolls an uncommitted session back at request teardown).
-/

/-- A calendar date, as produced by `datetime.date`. -/
structure Date where
  year : Nat
  month : Nat
  day : Nat
deriving DecidableEq, Repr

/-- Order-embedding of a calendar date into `Nat`.  For the valid dates that
`datetime` can produce (`1 ≤ month ≤ 12`, `1 ≤ day ≤ 31`) this is exactly the
lexicographic year/month/day order used by Python date comparison, because
`month * 32 + day ≤ 12 * 32 + 31 < 416`. -/
def Date.idx (d : Date) : Nat := d.year * 416 + d.month * 32 + d.day

/-- Python `d1 <= d2` on dates. -/
def Date.ble (a b : Date) : Bool := decide (a.idx ≤ b.idx)

/-- Python `d1 < d2` on dates. -/
def Date.blt (a b : Date) : Bool := decide (a.idx < b.idx)

@[simp] theorem Date.ble_iff {a b : Date} : Date.ble a b = true ↔ a.idx ≤ b.idx := by
  simp [Date.ble]

@[simp] theorem Date.blt_iff {a b : Date} : Date.blt a b = true ↔ a.idx < b.idx := by
  simp [Date.blt]

/-- Gregorian leap-year rule as implemented by Python's `datetime`. -/
def isLeap (y : Nat) : Bool :=
  (y % 4 == 0 && y % 100 != 0) || y % 400 == 0

/-- Number of days of month `m` of year `y` (Python `calendar`/`datetime`
semantics, an external collaborator of app.py). -/
def daysInMonth (y m : Nat) : Nat :=
  if m = 2 then (if isLeap y then 29 else 28)
  else if m = 4 || m = 6 || m = 9 || m = 11 then 30
  else 31

/-- `d - timedelta(days=1)` of Python `datetime` on a valid date. -/
def prevDay (d : Date) : Date :=
  if 1 < d.day then ⟨d.year, d.month, d.day - 1⟩
  else if 1 < d.month then ⟨d.year, d.month - 1, daysInMonth d.year (d.month - 1)⟩
  else ⟨d.year - 1, 12, 31⟩

/-- First day of the target month: `target_month.replace(day=1)`
(app.py 418). -/
def monthStart (y m : Nat) : Date := ⟨y, m, 1⟩

/-- Last day of the target month, exactly as computed in app.py 419-422:
for December, `Jan 1 of (year+1) - 1 day`; otherwise
`day 1 of (month+1) - 1 day`. -/
def monthEnd (y m : Nat) : Date :=
  if m = 12 then prevDay ⟨y + 1, 1, 1⟩
  else prevDay ⟨y, m + 1, 1⟩

/-- `employees` table (app.py 49-54). -/
structure Employee where
  id : Nat
  employee_code : String
  name : String
  email : Option String
deriving DecidableEq, Repr

/-- `shifts` table (app.py 77-87); times in minutes since midnight. -/
structure Shift where
  id : Nat
  employee_id : Nat
  group_id : Nat
  date : Date
  start_time : Nat
  end_time : Nat
deriving DecidableEq, Repr

/-- `wage_rates` table (app.py 100-110). -/
structure WageRate where
  id : Nat
  group_id : Nat
  hourly_rate : ℚ
  effective_from : Date
  effective_to : Option Date
deriving DecidableEq, Repr

/-- `shift_swaps` table (app.py 112-122); `status` is one of
"pending" / "approved" / "rejected". -/
structure ShiftSwap where
  id : Nat
  shift_id : Nat
  requester_id : Nat
  status : String
deriving DecidableEq, Repr

/-- `shift_histories` table (app.py 153-164); surrogate id and the
db-generated `changed_at` timestamp are omitted. -/
structure ShiftHistory where
  shift_id : Nat
  old_employee_id : Nat
  new_employee_id : Nat
  changed_by : String
deriving DecidableEq, Repr

/-- `shift_responses` table (app.py 125-138); the three preferred fields are
nullable. -/
structure ShiftResponse where
  id : Nat
  request_id : Nat
  employee_id : Nat
  preferred_date : Option Date
  preferred_start : Option Nat
  preferred_end : Option Nat
deriving DecidableEq, Repr

/-- `shift_requests` table (app.py 166-176). -/
structure ShiftRequest where
  id : Nat
  group_id : Nat
deriving DecidableEq, Repr

/-- The persistent store: one list per table touched by the core. -/
structure DB where
  employees : List Employee
  shifts : List Shift
  wage_rates : List WageRate
  shift_swaps : List ShiftSwap
  shift_histories : List ShiftHistory
  shift_responses : List ShiftResponse
  shift_requests : List ShiftRequest
deriving DecidableEq, Repr

/-- Error taxonomy of the spec (§7): each constructor corresponds to the
HTTP failure responses emitted by the handlers (403 / 400 bad field /
404 / 400 duplicate / 500). -/
inductive Err where
  | forbidden
  | validation
  | notFound
  | conflict
  | internal
deriving DecidableEq, Repr

/-- `Employee.query.get(id)`. -/
def findEmployee (l : List Employee) (i : Nat) : Option Employee :=
  l.find? (fun e => e.id == i)

/-- `Shift.query.get(id)`. -/
def findShift (l : List Shift) (i : Nat) : Option Shift :=
  l.find? (fun s => s.id == i)

/-- `ShiftSwap.query.get(id)`. -/
def findSwap (l : List ShiftSwap) (i : Nat) : Option ShiftSwap :=
  l.find? (fun s => s.id == i)

/-- `ShiftResponse.query.get(id)`. -/
def findResponse (l : List ShiftResponse) (i : Nat) : Option ShiftResponse :=
  l.find? (fun r => r.id == i)

/-- `ShiftRequest.query.get(id)` (the `response.request` backref). -/
def findRequest (l : List ShiftRequest) (i : Nat) : Option ShiftRequest :=
  l.find? (fun r => r.id == i)

/-- Does a wage rate qualify for group `g` at date `d`: the filter
`WageRate.group_id == s.group_id, WageRate.effective_from <= s.date`
of app.py 443-445.  Note that `effective_to` is not consulted. -/
def qualifies (g : Nat) (d : Date) (w : WageRate) : Bool :=
  w.group_id == g && Date.ble w.effective_from d

/-- Scan keeping the row with the largest `effective_from` seen so far:
the first row of `ORDER BY effective_from DESC` (app.py 446), with ties
resolved in favour of the earlier row. -/
def latestAux : Option WageRate → List WageRate → Option WageRate
  | acc, [] => acc
  | none, w :: ws => latestAux (some w) ws
  | some b, w :: ws =>
      latestAux (some (if Date.blt b.effective_from w.effective_from then w else b)) ws

/-- The wage-rate query of app.py 443-446: among the rates of group `g` with
`effective_from <= d`, the one with the maximal `effective_from`
(`.first()` of the descending order), or `none` when no rate qualifies. -/
def resolveRate (rates : List WageRate) (g : Nat) (d : Date) : Option WageRate :=
  latestAux none (rates.filter (qualifies g d))

/-- Shift duration in hours (app.py 439-440):
`(end_time - start_time).total_seconds() / 3600` with minute-granularity
times. -/
def duration (s : Shift) : ℚ :=
  ((s.end_time : ℚ) - (s.start_time : ℚ)) / 60

/-- `wage.hourly_rate if wage else 0` (app.py 448). -/
def shiftRate (rates : List WageRate) (s : Shift) : ℚ :=
  match resolveRate rates s.group_id s.date with
  | some w => w.hourly_rate
  | none => 0

/-- The accumulation loop of app.py 437-450:
`total_hours += duration; total_salary += duration * hourly_rate`. -/
def salaryFold (rates : List WageRate) (shifts : List Shift) : ℚ × ℚ :=
  shifts.foldl
    (fun acc s => (acc.1 + duration s, acc.2 + duration s * shiftRate rates s))
    (0, 0)

/-- Python `round` on a rational: round half to even (banker's rounding,
the semantics of `round` on floats and ints alike). -/
def pyRoundInt (q : ℚ) : ℤ :=
  if q - ⌊q⌋ < 1 / 2 then ⌊q⌋
  else if (1 : ℚ) / 2 < q - ⌊q⌋ then ⌊q⌋ + 1
  else if ⌊q⌋ % 2 = 0 then ⌊q⌋ else ⌊q⌋ + 1

/-- Python `round(x, 2)` (app.py 455). -/
def round2 (q : ℚ) : ℚ := (pyRoundInt (q * 100) : ℚ) / 100

/-- Python `round(x, 0)` (app.py 456). -/
def round0 (q : ℚ) : ℚ := (pyRoundInt q : ℚ)

/-- Successful payload of `salary_estimate` (app.py 452-457). -/
structure SalaryOut where
  employee_id : Nat
  total_hours : ℚ
  estimated_salary : ℚ
deriving DecidableEq, Repr

/-- `GET /salary_estimate/<employee_id>?month=YYYY-MM` (app.py 404-457),
after month-string parsing: computes the first and last day of the month,
selects the employee's shifts in that closed range, and accumulates hours
and pay; `none` models the `"No shifts found for this month"` 200 reply. -/
def salary_estimate (db : DB) (employee_id y m : Nat) : Option SalaryOut :=
  let sd := monthStart y m
  let ed := monthEnd y m
  let monthShifts := db.shifts.filter
    (fun s => s.employee_id == employee_id && Date.ble sd s.date && Date.ble s.date ed)
  if monthShifts.isEmpty then none
  else
    let acc := salaryFold db.wage_rates monthShifts
    some ⟨employee_id, round2 acc.1, round0 acc.2⟩

/-- Fresh primary key for an inserted shift. -/
def nextShiftId (db : DB) : Nat :=
  (db.shifts.map (fun s => s.id)).foldl Nat.max 0 + 1

/-- `POST /shift_responses/<response_id>/approve` (app.py 271-323).
Checks, in source order: admin role (403), response existence (404), the
three preferred fields (400), duplicate shift for
`(employee_id, date, start_time, end_time)` (400 conflict); then inserts the
new shift and commits.  The dangling-`request_id` case (`request_info` is
`None`, an `AttributeError` caught by the global handler) is `Err.internal`. -/
def approve_shift_response (db : DB) (role : String) (response_id : Nat) :
    Except Err (Nat × Nat) × DB :=
  if role = "admin" then
    match findResponse db.shift_responses response_id with
    | none => (.error .notFound, db)
    | some resp =>
      match resp.preferred_date, resp.preferred_start, resp.preferred_end with
      | some date, some st, some en =>
        if db.shifts.any (fun s =>
            s.employee_id == resp.employee_id && s.date == date &&
            s.start_time == st && s.end_time == en) then
          (.error .conflict, db)
        else
          match findRequest db.shift_requests resp.request_id with
          | none => (.error .internal, db)
          | some req =>
            let sid := nextShiftId db
            (.ok (sid, resp.employee_id),
             { db with shifts :=
                 db.shifts ++ [⟨sid, resp.employee_id, req.group_id, date, st, en⟩] })
      | _, _, _ => (.error .validation, db)
  else (.error .forbidden, db)

/-- In-session update `swap.status = new_status` (app.py 548), keyed by the
swap's primary key. -/
def setSwapStatus (swaps : List ShiftSwap) (i : Nat) (st : String) : List ShiftSwap :=
  swaps.map (fun sw => if sw.id = i then { sw with status := st } else sw)

/-- In-session update `shift.employee_id = new_employee_id` (app.py 560). -/
def setShiftEmployee (shifts : List Shift) (i nid : Nat) : List Shift :=
  shifts.map (fun s => if s.id = i then { s with employee_id := nid } else s)

/-- `PATCH /shift_swaps/<swap_id>` (app.py 530-577).  Checks, in source
order: admin role (403), `status in ["approved", "rejected"]` (400), swap
existence (404); then the session mutation `swap.status = new_status`.  On
"approved": `new_employee_id` required (400), target employee must exist
(404); the shift is reassigned and a `ShiftHistory` row added with
`changed_by` = the admin's email claim.  `db.session.commit()` is only
reached on the two success paths, so every failure path returns the
original database (the uncommitted session is rolled back).  A dangling
`swap.shift` (`AttributeError`, caught by the global 500 handler) is
`Err.internal`. -/
def update_shift_swap_status (db : DB) (role email : String) (swap_id : Nat)
    (new_status : String) (new_employee_id : Option Nat) :
    Except Err String × DB :=
  if role = "admin" then
    if new_status = "approved" ∨ new_status = "rejected" then
      match findSwap db.shift_swaps swap_id with
      | none => (.error .notFound, db)
      | some swap =>
        let swaps2 := setSwapStatus db.shift_swaps swap_id new_status
        if new_status = "approved" then
          match new_employee_id with
          | none => (.error .validation, db)
          | some nid =>
            match findEmployee db.employees nid with
            | none => (.error .notFound, db)
            | some _ =>
              match findShift db.shifts swap.shift_id with
              | none => (.error .internal, db)
              | some shift =>
                (.ok new_status,
                 { db with
                     shift_swaps := swaps2,
                     shifts := setShiftEmployee db.shifts shift.id nid,
                     shift_histories := db.shift_histories ++
                       [⟨shift.id, shift.employee_id, nid, email⟩] })
        else
          (.ok new_status, { db with shift_swaps := swaps2 })
    else (.error .validation, db)
  else (.error .forbidden, db)

/-- Overwrite of the `effective_to` column only. -/
def setEffTo (f : WageRate → Option Date) (w : WageRate) : WageRate :=
  { w with effective_to := f w }

/-! ## Concrete fixture data (the worked example of spec §8, extended with an
expired rate, a second employee, swap and response rows). -/

def rateJan : WageRate := ⟨1, 1, 1000, ⟨2025, 1, 1⟩, none⟩

def rateJun : WageRate := ⟨2, 1, 1200, ⟨2025, 6, 1⟩, none⟩

/-- A rate of group 2 whose `effective_to` has already passed in March. -/
def rateOld : WageRate := ⟨3, 2, 800, ⟨2025, 1, 1⟩, some ⟨2025, 1, 31⟩⟩

def empFive : Employee := ⟨5, "E5", "Alice", some "alice@example.com"⟩

def empSix : Employee := ⟨6, "E6", "Bob", some "bob@example.com"⟩

/-- 2025-03-15, 09:00-11:00 (2 h), employee 5, group 1. -/
def shiftMar : Shift := ⟨1, 5, 1, ⟨2025, 3, 15⟩, 540, 660⟩

/-- 2025-07-01, 09:00-12:00 (3 h), employee 5, group 1. -/
def shiftJul : Shift := ⟨2, 5, 1, ⟨2025, 7, 1⟩, 540, 720⟩

/-- 2025-03-15, 09:00-10:00 (1 h), employee 6, group 2 (expired rate). -/
def shiftExp : Shift := ⟨3, 6, 2, ⟨2025, 3, 15⟩, 540, 600⟩

/-- A complete response: 2025-05-01, 09:00-12:00, employee 5. -/
def respSeven : ShiftResponse := ⟨7, 4, 5, some ⟨2025, 5, 1⟩, some 540, some 720⟩

/-- A response missing its `preferred_date`. -/
def respBad : ShiftResponse := ⟨8, 4, 5, none, some 540, some 720⟩

/-- A response duplicating the existing July shift. -/
def respDup : ShiftResponse := ⟨9, 4, 5, some ⟨2025, 7, 1⟩, some 540, some 720⟩

def reqFour : ShiftRequest := ⟨4, 1⟩

def swapPend : ShiftSwap := ⟨1, 1, 5, "pending"⟩

def swapDone : ShiftSwap := ⟨2, 1, 5, "approved"⟩

def dbMain : DB :=
  ⟨[empFive, empSix], [shiftMar, shiftJul, shiftExp], [rateJan, rateJun, rateOld],
   [swapPend, swapDone], [], [respSeven, respBad, respDup], [reqFour]⟩

/-! ## Helper lemmas: the wage-rate scan -/

theorem latestAux_some_spec (l : List WageRate) :
    ∀ b : WageRate, ∃ r, latestAux (some b) l = some r ∧ (r = b ∨ r ∈ l) ∧
      b.effective_from.idx ≤ r.effective_from.idx ∧
      ∀ w ∈ l, w.effective_from.idx ≤ r.effective_from.idx := by
  induction l with
  | nil =>
    intro b
    exact ⟨b, rfl, Or.inl rfl, le_refl _, by simp⟩
  | cons w ws ih =>
    intro b
    by_cases h : Date.blt b.effective_from w.effective_from = true
    · obtain ⟨r, hr, hmem, hle, hall⟩ := ih w
      refine ⟨r, ?_, ?_, ?_, ?_⟩
      · simpa [latestAux, h] using hr
      · rcases hmem with rfl | hm
        · exact Or.inr (List.mem_cons_self _ _)
        · exact Or.inr (List.mem_cons_of_mem _ hm)
      · have hbw : b.effective_from.idx < w.effective_from.idx := Date.blt_iff.mp h
        omega
      · intro x hx
        rcases List.mem_cons.mp hx with rfl | hx
        · exact hle
        · exact hall x hx
    · obtain ⟨r, hr, hmem, hle, hall⟩ := ih b
      refine ⟨r, ?_, ?_, hle, ?_⟩
      · simpa [latestAux, h] using hr
      · rcases hmem with rfl | hm
        · exact Or.inl rfl
        · exact Or.inr (List.mem_cons_of_mem _ hm)
      · intro x hx
        rcases List.mem_cons.mp hx with rfl | hx
        · have hwb : ¬ b.effective_from.idx < x.effective_from.idx := by
            intro hcon
            exact h (Date.blt_iff.mpr hcon)
          omega
        · exact hall x hx

theorem resolveRate_none_iff (rates : List WageRate) (g : Nat) (d : Date) :
    resolveRate rates g d = none ↔ ∀ w ∈ rates, ¬ qualifies g d w = true := by
  rw [← List.filter_eq_nil_iff]
  unfold resolveRate
  cases hf : rates.filter (qualifies g d) with
  | nil => simp [latestAux]
  | cons w ws =>
    obtain ⟨r, hr, -, -, -⟩ := latestAux_some_spec ws w
    simp [latestAux, hr]

theorem resolveRate_some_spec (rates : List WageRate) (g : Nat) (d : Date)
    (w : WageRate) (h : resolveRate rates g d = some w) :
    w ∈ rates ∧ qualifies g d w = true ∧
      ∀ w' ∈ rates, qualifies g d w' = true →
        w'.effective_from.idx ≤ w.effective_from.idx := by
  unfold resolveRate at h
  cases hf : rates.filter (qualifies g d) with
  | nil => rw [hf] at h; simp [latestAux] at h
  | cons a t =>
    rw [hf] at h
    obtain ⟨r, hr, hmem, hle, hall⟩ := latestAux_some_spec t a
    have hrw : r = w := by
      have := hr.symm.trans h
      exact Option.some_injective _ this
    rw [hrw] at hmem hle hall
    have hwf : w ∈ rates.filter (qualifies g d) := by
      rw [hf]
      rcases hmem with rfl | hm
      · exact List.mem_cons_self _ _
      · exact List.mem_cons_of_mem _ hm
    refine ⟨(List.mem_filter.mp hwf).1, (List.mem_filter.mp hwf).2, ?_⟩
    intro w' hw' hq
    have hwf' : w' ∈ rates.filter (qualifies g d) := List.mem_filter.mpr ⟨hw', hq⟩
    rw [hf] at hwf'
    rcases List.mem_cons.mp hwf' with rfl | hx
    · exact hle
    · exact hall w' hx

theorem latestAux_setEffTo (f : WageRate → Option Date) (l : List WageRate) :
    ∀ acc : Option WageRate,
      latestAux (Option.map (setEffTo f) acc) (l.map (setEffTo f)) =
        Option.map (setEffTo f) (latestAux acc l) := by
  induction l with
  | nil => intro acc; cases acc <;> rfl
  | cons w ws ih =>
    intro acc
    cases acc with
    | none => simpa [latestAux] using ih (some w)
    | some b =>
      have step : latestAux (Option.map (setEffTo f) (some b)) ((w :: ws).map (setEffTo f)) =
          latestAux (some (if Date.blt b.effective_from w.effective_from
            then setEffTo f w else setEffTo f b)) (ws.map (setEffTo f)) := rfl
      have step2 : latestAux (some b) (w :: ws) =
          latestAux (some (if Date.blt b.effective_from w.effective_from then w else b)) ws := rfl
      rw [step, ← apply_ite (setEffTo f), step2]
      exact ih (some (if Date.blt b.effective_from w.effective_from then w else b))

theorem resolveRate_setEffTo (rates : List WageRate) (g : Nat) (d : Date)
    (f : WageRate → Option Date) :
    resolveRate (rates.map (setEffTo f)) g d =
      Option.map (setEffTo f) (resolveRate rates g d) := by
  unfold resolveRate
  have hq : qualifies g d ∘ setEffTo f = qualifies g d := by
    funext w; rfl
  rw [List.filter_map (setEffTo f) rates, hq]
  simpa using latestAux_setEffTo f (rates.filter (qualifies g d)) none

/-! ## Claim theorems: wage resolver (C1, C10) -/

/-- C1: `resolveRate(G, D)` (the wage-rate query of app.py 443-446) returns a
qualifying rate of group `G` with the maximal `effective_from ≤ D`, and
`none` exactly when no rate of `G` has `effective_from ≤ D`; in the salary
loop a shift whose group has no qualifying rate contributes its duration to
the hours accumulator but `0` to the salary accumulator, and no failure
results. -/
theorem C1_resolveRate_latest (rates : List WageRate) (g : Nat) (d : Date) :
    (resolveRate rates g d = none ↔ ∀ w ∈ rates, ¬ qualifies g d w = true)
    ∧ (∀ w, resolveRate rates g d = some w →
        w ∈ rates ∧ qualifies g d w = true ∧
          ∀ w' ∈ rates, qualifies g d w' = true →
            w'.effective_from.idx ≤ w.effective_from.idx)
    ∧ (∀ s : Shift, resolveRate rates s.group_id s.date = none →
        salaryFold rates [s] = (duration s, 0)) := by
  refine ⟨resolveRate_none_iff rates g d,
          fun w h => resolveRate_some_spec rates g d w h, ?_⟩
  intro s hs
  simp [salaryFold, shiftRate, hs]

/-- C10: rate resolution never consults `effective_to`: rewriting the
`effective_to` column of every rate arbitrarily does not change which rate
(id, group, `hourly_rate`, `effective_from`) is selected, and a rate whose
`effective_to` lies strictly before the shift's date is still used at its
full `hourly_rate` in the salary computation. -/
theorem C10_effective_to_ignored (rates : List WageRate) (g : Nat) (d : Date)
    (f : WageRate → Option Date) :
    (resolveRate (rates.map (setEffTo f)) g d =
        Option.map (setEffTo f) (resolveRate rates g d))
    ∧ (Option.map WageRate.hourly_rate (resolveRate (rates.map (setEffTo f)) g d) =
        Option.map WageRate.hourly_rate (resolveRate rates g d))
    ∧ (∀ (s : Shift) (w : WageRate) (t : Date),
        resolveRate rates s.group_id s.date = some w →
        w.effective_to = some t → Date.blt t s.date = true →
        shiftRate rates s = w.hourly_rate) := by
  refine ⟨resolveRate_setEffTo rates g d f, ?_, ?_⟩
  · rw [resolveRate_setEffTo rates g d f]
    cases resolveRate rates g d <;> rfl
  · intro s w t hres hto hlt
    simp [shiftRate, hres]

/-! ## Helper lemmas: month boundaries, accumulation, rounding -/

theorem monthEnd_eq (y m : Nat) (h1 : 1 ≤ m) (h2 : m ≤ 12) :
    monthEnd y m = ⟨y, m, daysInMonth y m⟩ := by
  by_cases h : m = 12
  · subst h
    simp [monthEnd, prevDay, daysInMonth]
  · have hlt : 1 < m + 1 := by omega
    simp [monthEnd, h, prevDay, hlt]

theorem salaryFold_aux (rates : List WageRate) (shifts : List Shift) :
    ∀ a b : ℚ,
      shifts.foldl
        (fun acc s => (acc.1 + duration s, acc.2 + duration s * shiftRate rates s)) (a, b)
      = (a + (shifts.map duration).sum,
         b + (shifts.map (fun s => duration s * shiftRate rates s)).sum) := by
  induction shifts with
  | nil => intro a b; simp
  | cons s t ih =>
    intro a b
    simp only [List.foldl_cons, List.map_cons, List.sum_cons]
    rw [ih (a + duration s) (b + duration s * shiftRate rates s)]
    simp [Prod.ext_iff]
    constructor <;> ring

theorem salaryFold_eq (rates : List WageRate) (shifts : List Shift) :
    salaryFold rates shifts =
      ((shifts.map duration).sum,
       (shifts.map (fun s => duration s * shiftRate rates s)).sum) := by
  unfold salaryFold
  simpa using salaryFold_aux rates shifts 0 0

theorem pyRoundInt_close (q : ℚ) : |(pyRoundInt q : ℚ) - q| ≤ 1 / 2 := by
  have h0 : (⌊q⌋ : ℚ) ≤ q := Int.floor_le q
  have h1 : q < ⌊q⌋ + 1 := Int.lt_floor_add_one q
  unfold pyRoundInt
  split_ifs with ha hb hc
  · rw [abs_le]
    constructor <;> linarith
  · rw [abs_le]
    push_cast
    constructor <;> linarith
  · rw [abs_le]
    constructor <;> linarith
  · rw [abs_le]
    push_cast
    constructor <;> linarith

theorem round0_close (q : ℚ) : |round0 q - q| ≤ 1 / 2 := pyRoundInt_close q

theorem round2_close (q : ℚ) : |round2 q - q| ≤ 1 / 200 := by
  have h := pyRoundInt_close (q * 100)
  rw [abs_le] at h ⊢
  unfold round2
  constructor <;> linarith [h.1, h.2]

/-! ## Claim theorems: salary estimation (C2, C9) -/

/-- C2: for a valid month `y-m`, `salary_estimate` (app.py 404-457) considers
exactly the employee's shifts with a date in the closed range from the first
to the last day of the month (the last day being `daysInMonth`, December
ending on Dec 31 of the same year), and reports the sum of the durations as
hours and the sum of duration × resolved rate as salary (each under the
reporting rounding). -/
theorem C2_salary_month (db : DB) (e y m : Nat) (h1 : 1 ≤ m) (h2 : m ≤ 12) :
    monthStart y m = ⟨y, m, 1⟩
    ∧ monthEnd y m = ⟨y, m, daysInMonth y m⟩
    ∧ (∀ l, db.shifts.filter (fun s => s.employee_id == e &&
          Date.ble ⟨y, m, 1⟩ s.date && Date.ble s.date ⟨y, m, daysInMonth y m⟩) = l →
        (l = [] → salary_estimate db e y m = none)
        ∧ (l ≠ [] → salary_estimate db e y m =
            some ⟨e, round2 (l.map duration).sum,
                  round0 (l.map (fun s => duration s * shiftRate db.wage_rates s)).sum⟩)) := by
  have me := monthEnd_eq y m h1 h2
  refine ⟨rfl, me, ?_⟩
  intro l hl
  have hfilter : db.shifts.filter (fun s => s.employee_id == e &&
      Date.ble (monthStart y m) s.date && Date.ble s.date (monthEnd y m)) = l := by
    rw [me]
    exact hl
  constructor
  · intro hnil
    simp only [salary_estimate, hfilter, hnil]
    rfl
  · intro hne
    simp only [salary_estimate, hfilter]
    cases l with
    | nil => exact absurd rfl hne
    | cons x xs =>
      simp only [List.isEmpty_cons, if_false, Bool.false_eq_true]
      rw [salaryFold_eq]

/-- C9: whenever `salary_estimate` reports a result, its `total_hours` is the
accumulated hour sum rounded to 2 decimal places (a multiple of 1/100 within
1/200 of the exact sum) and its `estimated_salary` is the accumulated salary
sum rounded to the nearest integer (an integer within 1/2 of the exact
sum), via Python `round` (app.py 455-456). -/
theorem C9_rounding (db : DB) (e y m : Nat) (res : SalaryOut)
    (h : salary_estimate db e y m = some res) :
    ∃ th ts : ℚ,
      salaryFold db.wage_rates (db.shifts.filter (fun s => s.employee_id == e &&
        Date.ble (monthStart y m) s.date && Date.ble s.date (monthEnd y m))) = (th, ts)
      ∧ res.total_hours = round2 th
      ∧ res.estimated_salary = round0 ts
      ∧ (∃ k : ℤ, res.total_hours = (k : ℚ) / 100)
      ∧ |res.total_hours - th| ≤ 1 / 200
      ∧ (∃ k : ℤ, res.estimated_salary = (k : ℚ))
      ∧ |res.estimated_salary - ts| ≤ 1 / 2 := by
  by_cases hemp : (db.shifts.filter (fun s => s.employee_id == e &&
      Date.ble (monthStart y m) s.date && Date.ble s.date (monthEnd y m))).isEmpty
  · simp only [salary_estimate, hemp, if_true] at h
    exact absurd h (by simp)
  · simp only [salary_estimate, hemp, if_false, Bool.false_eq_true] at h
    have hres := (Option.some_injective _ h).symm
    refine ⟨(salaryFold db.wage_rates _).1, (salaryFold db.wage_rates _).2, rfl, ?_⟩
    subst hres
    refine ⟨rfl, rfl, ⟨pyRoundInt (_ * 100), rfl⟩, round2_close _,
      ⟨pyRoundInt _, rfl⟩, round0_close _⟩

/-! ## Witnesses for C1, C2, C9, C10 -/

/-- Witness for C1 at the spec §8 example: on 2025-03-15 the January rate is
resolved and it is maximal among the qualifying rates. -/
theorem C1_witness :
    resolveRate [rateJan, rateJun] 1 ⟨2025, 3, 15⟩ = some rateJan
    ∧ (rateJan ∈ [rateJan, rateJun] ∧ qualifies 1 ⟨2025, 3, 15⟩ rateJan = true ∧
        ∀ w' ∈ [rateJan, rateJun], qualifies 1 ⟨2025, 3, 15⟩ w' = true →
          w'.effective_from.idx ≤ rateJan.effective_from.idx) := by
  have h : resolveRate [rateJan, rateJun] 1 ⟨2025, 3, 15⟩ = some rateJan := by decide
  exact ⟨h, (C1_resolveRate_latest [rateJan, rateJun] 1 ⟨2025, 3, 15⟩).2.1 rateJan h⟩

/-- Witness for C2: July 2025 for employee 5 selects exactly the July shift
and reports its 3 hours at the June rate. -/
theorem C2_witness :
    salary_estimate dbMain 5 2025 7 =
      some ⟨5, round2 ([shiftJul].map duration).sum,
            round0 ([shiftJul].map
              (fun s => duration s * shiftRate dbMain.wage_rates s)).sum⟩ :=
  (((C2_salary_month dbMain 5 2025 7 (by norm_num) (by norm_num)).2.2)
      [shiftJul] (by decide)).2 (by decide)

/-- Witness for C9 on the same concrete query, whose reported result is
3 hours and a salary of 3600. -/
theorem C9_witness :
    ∃ th ts : ℚ,
      salaryFold dbMain.wage_rates (dbMain.shifts.filter (fun s => s.employee_id == 5 &&
        Date.ble (monthStart 2025 7) s.date && Date.ble s.date (monthEnd 2025 7))) = (th, ts)
      ∧ (⟨5, 3, 3600⟩ : SalaryOut).total_hours = round2 th
      ∧ (⟨5, 3, 3600⟩ : SalaryOut).estimated_salary = round0 ts
      ∧ (∃ k : ℤ, (⟨5, 3, 3600⟩ : SalaryOut).total_hours = (k : ℚ) / 100)
      ∧ |(⟨5, 3, 3600⟩ : SalaryOut).total_hours - th| ≤ 1 / 200
      ∧ (∃ k : ℤ, (⟨5, 3, 3600⟩ : SalaryOut).estimated_salary = (k : ℚ))
      ∧ |(⟨5, 3, 3600⟩ : SalaryOut).estimated_salary - ts| ≤ 1 / 2 :=
  C9_rounding dbMain 5 2025 7 ⟨5, 3, 3600⟩ (by
    norm_num [salary_estimate, salaryFold, duration, shiftRate, resolveRate, latestAux,
      qualifies, round2, round0, pyRoundInt, monthStart, monthEnd, prevDay, daysInMonth,
      Date.ble, Date.blt, Date.idx, isLeap, dbMain, shiftMar, shiftJul, shiftExp,
      rateJan, rateJun, rateOld, empFive, empSix, swapPend, swapDone, respSeven,
      respBad, respDup, reqFour])

/-- Witness for C10: the group-2 rate expired on 2025-01-31 is still applied
at full value to a shift on 2025-03-15. -/
theorem C10_witness :
    rateOld.effective_to = some ⟨2025, 1, 31⟩
    ∧ Date.blt ⟨2025, 1, 31⟩ shiftExp.date = true
    ∧ shiftRate [rateJan, rateJun, rateOld] shiftExp = rateOld.hourly_rate := by
  refine ⟨rfl, by decide, ?_⟩
  exact (C10_effective_to_ignored [rateJan, rateJun, rateOld] 2 shiftExp.date
      (fun _ => none)).2.2 shiftExp rateOld ⟨2025, 1, 31⟩ (by decide) rfl (by decide)

/-! ## Helper lemmas: keyed updates and lookups -/

theorem findSwap_setSwapStatus (l : List ShiftSwap) (i : Nat) (st : String) :
    findSwap (setSwapStatus l i st) i =
      (findSwap l i).map (fun sw => { sw with status := st }) := by
  induction l with
  | nil => rfl
  | cons sw t ih =>
    by_cases h : sw.id = i
    · simp [findSwap, setSwapStatus, List.find?_cons, h]
    · simpa [findSwap, setSwapStatus, List.find?_cons, h] using ih

theorem findShift_setShiftEmployee (l : List Shift) (i nid : Nat) :
    findShift (setShiftEmployee l i nid) i =
      (findShift l i).map (fun s => { s with employee_id := nid }) := by
  induction l with
  | nil => rfl
  | cons s t ih =>
    by_cases h : s.id = i
    · simp [findShift, setShiftEmployee, List.find?_cons, h]
    · simpa [findShift, setShiftEmployee, List.find?_cons, h] using ih

theorem findShift_id (l : List Shift) (i : Nat) (s : Shift)
    (h : findShift l i = some s) : s.id = i := by
  have hp := List.find?_some h
  simpa using hp

/-! ## Claim theorems: shift-swap workflow (C3, C6, C7, C8) -/

/-- C3: approving a pending swap (app.py 548-571) fails with a validation
error when `new_employee_id` is absent, fails with not-found when it names no
employee, and on success reassigns the referenced shift to the new employee
and appends exactly one history row recording the shift, the previous
employee, the new employee and the acting admin's email. -/
theorem C3_swap_approval (db : DB) (email : String) (sid : Nat)
    (swap : ShiftSwap) (shift : Shift)
    (hsw : findSwap db.shift_swaps sid = some swap)
    (hpend : swap.status = "pending")
    (hsh : findShift db.shifts swap.shift_id = some shift) :
    update_shift_swap_status db "admin" email sid "approved" none =
      (.error .validation, db)
    ∧ (∀ nid, findEmployee db.employees nid = none →
        update_shift_swap_status db "admin" email sid "approved" (some nid) =
          (.error .notFound, db))
    ∧ (∀ nid emp, findEmployee db.employees nid = some emp →
        update_shift_swap_status db "admin" email sid "approved" (some nid) =
          (.ok "approved",
           { db with
               shift_swaps := setSwapStatus db.shift_swaps sid "approved",
               shifts := setShiftEmployee db.shifts shift.id nid,
               shift_histories := db.shift_histories ++
                 [⟨shift.id, shift.employee_id, nid, email⟩] })
        ∧ findShift (setShiftEmployee db.shifts shift.id nid) shift.id =
            some { shift with employee_id := nid }) := by
  refine ⟨?_, ?_, ?_⟩
  · simp [update_shift_swap_status, hsw]
  · intro nid hemp
    simp [update_shift_swap_status, hsw, hemp]
  · intro nid emp hemp
    constructor
    · simp [update_shift_swap_status, hsw, hemp, hsh]
    · have hid := findShift_id db.shifts swap.shift_id shift hsh
      rw [hid, findShift_setShiftEmployee, hsh]
      simp [hid]

/-- C6 (code behaviour at the claim's failing input): a swap already in the
terminal state "approved" is transitioned again by a further
`update_shift_swap_status` call — the call succeeds and overwrites the
status, because app.py 548 assigns `swap.status = new_status` without
checking the current status. -/
theorem C6_terminal_state_transition :
    (findSwap dbMain.shift_swaps 2).map ShiftSwap.status = some "approved"
    ∧ (update_shift_swap_status dbMain "admin" "boss@example.com" 2
        "rejected" none).1 = .ok "rejected"
    ∧ (findSwap (update_shift_swap_status dbMain "admin" "boss@example.com" 2
        "rejected" none).2.shift_swaps 2).map ShiftSwap.status = some "rejected" := by
  refine ⟨by decide, rfl, by decide⟩

/-- C7: every declared failure of `update_shift_swap_status` (bad role,
invalid status, swap not found, missing `new_employee_id`, unknown new
employee, dangling shift) returns before `db.session.commit()`, so the
persistent state — in particular the swap's status — is unchanged. -/
theorem C7_failure_rolls_back (db : DB) (role email : String) (sid : Nat)
    (st : String) (nid : Option Nat) (e : Err)
    (h : (update_shift_swap_status db role email sid st nid).1 = .error e) :
    (update_shift_swap_status db role email sid st nid).2 = db := by
  by_cases hrole : role = "admin"
  · by_cases hst : st = "approved" ∨ st = "rejected"
    · cases hsw : findSwap db.shift_swaps sid with
      | none => simp [update_shift_swap_status, hrole, hst, hsw]
      | some swap =>
        by_cases hap : st = "approved"
        · cases nid with
          | none => simp [update_shift_swap_status, hrole, hst, hsw, hap]
          | some n =>
            cases hemp : findEmployee db.employees n with
            | none => simp [update_shift_swap_status, hrole, hst, hsw, hap, hemp]
            | some emp =>
              cases hshift : findShift db.shifts swap.shift_id with
              | none => simp [update_shift_swap_status, hrole, hst, hsw, hap, hemp, hshift]
              | some s0 =>
                simp [update_shift_swap_status, hrole, hst, hsw, hap, hemp, hshift] at h
        · have hrej : st = "rejected" := hst.resolve_left hap
          simp [update_shift_swap_status, hrole, hst, hsw, hap, hrej] at h
    · simp [update_shift_swap_status, hrole, hst]
  · simp [update_shift_swap_status, hrole]

/-- C8: rejecting a pending swap commits only the status overwrite: the
shifts table and the history table are untouched (so the referenced shift's
employee, date and times are unchanged and no history row is created), and
the swap's status becomes "rejected". -/
theorem C8_reject_frame (db : DB) (email : String) (sid : Nat)
    (swap : ShiftSwap) (nid : Option Nat)
    (hsw : findSwap db.shift_swaps sid = some swap)
    (hpend : swap.status = "pending") :
    update_shift_swap_status db "admin" email sid "rejected" nid =
      (.ok "rejected",
       { db with shift_swaps := setSwapStatus db.shift_swaps sid "rejected" })
    ∧ (update_shift_swap_status db "admin" email sid "rejected" nid).2.shifts = db.shifts
    ∧ (update_shift_swap_status db "admin" email sid "rejected" nid).2.shift_histories =
        db.shift_histories
    ∧ (update_shift_swap_status db "admin" email sid "rejected" nid).2.employees =
        db.employees
    ∧ findSwap (setSwapStatus db.shift_swaps sid "rejected") sid =
        some { swap with status := "rejected" } := by
  have h1 : update_shift_swap_status db "admin" email sid "rejected" nid =
      (.ok "rejected",
       { db with shift_swaps := setSwapStatus db.shift_swaps sid "rejected" }) := by
    simp [update_shift_swap_status, hsw]
  refine ⟨h1, ?_, ?_, ?_, ?_⟩
  · rw [h1]
  · rw [h1]
  · rw [h1]
  · rw [findSwap_setSwapStatus, hsw]
    rfl

/-! ## Claim theorems: shift-response approval (C4, C5) -/

/-- C5: `approve_shift_response` (app.py 271-323) fails with not-found when
the response does not exist, with a validation error when the three
preferred fields are not all present, with a conflict when a shift with the
same (employee, date, start, end) already exists, and otherwise inserts a
shift copying the response's employee, the request's group and the
preferred date/start/end. -/
theorem C5_approve_response_cases (db : DB) (rid : Nat) :
    (findResponse db.shift_responses rid = none →
      approve_shift_response db "admin" rid = (.error .notFound, db))
    ∧ (∀ resp, findResponse db.shift_responses rid = some resp →
        (resp.preferred_date = none ∨ resp.preferred_start = none ∨
          resp.preferred_end = none) →
        approve_shift_response db "admin" rid = (.error .validation, db))
    ∧ (∀ resp d st en, findResponse db.shift_responses rid = some resp →
        resp.preferred_date = some d → resp.preferred_start = some st →
        resp.preferred_end = some en →
        db.shifts.any (fun s => s.employee_id == resp.employee_id && s.date == d &&
          s.start_time == st && s.end_time == en) = true →
        approve_shift_response db "admin" rid = (.error .conflict, db))
    ∧ (∀ resp d st en req, findResponse db.shift_responses rid = some resp →
        resp.preferred_date = some d → resp.preferred_start = some st →
        resp.preferred_end = some en →
        db.shifts.any (fun s => s.employee_id == resp.employee_id && s.date == d &&
          s.start_time == st && s.end_time == en) = false →
        findRequest db.shift_requests resp.request_id = some req →
        approve_shift_response db "admin" rid =
          (.ok (nextShiftId db, resp.employee_id),
           { db with shifts := db.shifts ++
               [⟨nextShiftId db, resp.employee_id, req.group_id, d, st, en⟩] })) := by
  refine ⟨?_, ?_, ?_, ?_⟩
  · intro h
    simp [approve_shift_response, h]
  · intro resp h hmiss
    cases hpd : resp.preferred_date with
    | none => simp [approve_shift_response, h, hpd]
    | some d =>
      cases hps : resp.preferred_start with
      | none => simp [approve_shift_response, h, hpd, hps]
      | some stv =>
        cases hpe : resp.preferred_end with
        | none => simp [approve_shift_response, h, hpd, hps, hpe]
        | some env =>
          exfalso
          rcases hmiss with hc | hc | hc <;> simp_all
  · intro resp d st en h hpd hps hpe hany
    simp [approve_shift_response, h, hpd, hps, hpe, hany]
  · intro resp d st en req h hpd hps hpe hany hq
    simp [approve_shift_response, h, hpd, hps, hpe, hany, hq]

/-- C4: approving a complete response twice with no intervening change
succeeds the first time (inserting one shift), fails with a conflict the
second time, and leaves exactly one shift with the preferred
(employee, date, start, end). -/
theorem C4_double_approval (db : DB) (rid : Nat) (resp : ShiftResponse)
    (req : ShiftRequest) (d : Date) (st en : Nat)
    (hr : findResponse db.shift_responses rid = some resp)
    (hd : resp.preferred_date = some d)
    (hs : resp.preferred_start = some st)
    (he : resp.preferred_end = some en)
    (hq : findRequest db.shift_requests resp.request_id = some req)
    (hnc : db.shifts.any (fun s => s.employee_id == resp.employee_id && s.date == d &&
        s.start_time == st && s.end_time == en) = false) :
    (approve_shift_response db "admin" rid).1 = .ok (nextShiftId db, resp.employee_id)
    ∧ ((approve_shift_response db "admin" rid).2.shifts.filter
        (fun s => s.employee_id == resp.employee_id && s.date == d &&
          s.start_time == st && s.end_time == en)).length = 1
    ∧ approve_shift_response (approve_shift_response db "admin" rid).2 "admin" rid =
        (.error .conflict, (approve_shift_response db "admin" rid).2) := by
  have hstep : approve_shift_response db "admin" rid =
      (.ok (nextShiftId db, resp.employee_id),
       { db with shifts := db.shifts ++
           [⟨nextShiftId db, resp.employee_id, req.group_id, d, st, en⟩] }) := by
    simp [approve_shift_response, hr, hd, hs, he, hnc, hq]
  have hfil : db.shifts.filter (fun s => s.employee_id == resp.employee_id &&
      s.date == d && s.start_time == st && s.end_time == en) = [] := by
    rw [List.filter_eq_nil_iff]
    intro a ha
    have hax := (List.any_eq_false.mp hnc) a ha
    simpa using hax
  refine ⟨?_, ?_, ?_⟩
  · rw [hstep]
  · rw [hstep]
    simp [List.filter_append, hfil]
  · rw [hstep]
    simp [approve_shift_response, hr, hd, hs, he, hq, List.any_append, hnc]

/-! ## Witnesses for C3, C4, C5, C7, C8 -/

/-- Witness for C3: approving the pending swap 1 without a new employee is a
validation error; approving it with employee 6 reassigns shift 1 and appends
the single audit row. -/
theorem C3_witness :
    update_shift_swap_status dbMain "admin" "boss@example.com" 1 "approved" none =
      (.error .validation, dbMain)
    ∧ (update_shift_swap_status dbMain "admin" "boss@example.com" 1 "approved" (some 6) =
        (.ok "approved",
         { dbMain with
             shift_swaps := setSwapStatus dbMain.shift_swaps 1 "approved",
             shifts := setShiftEmployee dbMain.shifts shiftMar.id 6,
             shift_histories := dbMain.shift_histories ++
               [⟨shiftMar.id, shiftMar.employee_id, 6, "boss@example.com"⟩] })
      ∧ findShift (setShiftEmployee dbMain.shifts shiftMar.id 6) shiftMar.id =
          some { shiftMar with employee_id := 6 }) := by
  have h := C3_swap_approval dbMain "boss@example.com" 1 swapPend shiftMar
    (by decide) rfl (by decide)
  exact ⟨h.1, h.2.2 6 empSix (by decide)⟩

/-- Witness for C4: double approval of response 7 (2025-05-01, 09:00-12:00,
employee 5). -/
theorem C4_witness :
    (approve_shift_response dbMain "admin" 7).1 =
      .ok (nextShiftId dbMain, respSeven.employee_id)
    ∧ ((approve_shift_response dbMain "admin" 7).2.shifts.filter
        (fun s => s.employee_id == respSeven.employee_id && s.date == ⟨2025, 5, 1⟩ &&
          s.start_time == 540 && s.end_time == 720)).length = 1
    ∧ approve_shift_response (approve_shift_response dbMain "admin" 7).2 "admin" 7 =
        (.error .conflict, (approve_shift_response dbMain "admin" 7).2) :=
  C4_double_approval dbMain 7 respSeven reqFour ⟨2025, 5, 1⟩ 540 720
    (by decide) rfl rfl rfl (by decide) (by decide)

/-- Witness for C5 at the conflict case: response 9 duplicates the existing
July shift, so its approval is rejected with a conflict and the state is
unchanged. -/
theorem C5_witness :
    approve_shift_response dbMain "admin" 9 = (.error .conflict, dbMain) :=
  (C5_approve_response_cases dbMain 9).2.2.1 respDup ⟨2025, 7, 1⟩ 540 720
    (by decide) rfl rfl rfl (by decide)

/-- Witness for C7: a call with an invalid status leaves the store
unchanged. -/
theorem C7_witness :
    (update_shift_swap_status dbMain "admin" "boss@example.com" 1 "bogus" none).2 =
      dbMain :=
  C7_failure_rolls_back dbMain "admin" "boss@example.com" 1 "bogus" none .validation rfl

/-- Witness for C8: rejecting the pending swap 1 only rewrites its status. -/
theorem C8_witness :
    update_shift_swap_status dbMain "admin" "boss@example.com" 1 "rejected" none =
      (.ok "rejected",
       { dbMain with shift_swaps := setSwapStatus dbMain.shift_swaps 1 "rejected" })
    ∧ (update_shift_swap_status dbMain "admin" "boss@example.com" 1
        "rejected" none).2.shifts = dbMain.shifts
    ∧ (update_shift_swap_status dbMain "admin" "boss@example.com" 1
        "rejected" none).2.shift_histories = dbMain.shift_histories
    ∧ (update_shift_swap_status dbMain "admin" "boss@example.com" 1
        "rejected" none).2.employees = dbMain.employees
    ∧ findSwap (setSwapStatus dbMain.shift_swaps 1 "rejected") 1 =
        some { swapPend with status := "rejected" } :=
  C8_reject_frame dbMain "boss@example.com" 1 swapPend none (by decide) rfl
